import Mathlib

/-!
Verification of the asynchronous research-job pipeline of the `val`
repository: the PSF research agent (`psf-research.agent.ts`), its prompt
context builder (`psf-analysis.prompt.ts`), the synthesis schema
(`psf.schema.ts`), and the research worker (`research.worker.ts`) together
with its queue configuration (`queue.ts`).

The TypeScript code is shallowly embedded: JavaScript strings become Lean
`String`s, `Promise` results become `Except String` values (a rejected
promise is `.error msg`), external AI calls become oracle parameters giving
the outcome of each call, and the database writes of the worker become an
explicit operation trace interpreted against an explicit database state.
-/

namespace Val

/-! ## String helpers (models of the JavaScript string primitives used) -/

/-- Model of JavaScript `String.prototype.toLowerCase`, character by
character (the source only applies it to ASCII URL strings). -/
def jsToLowerCase (s : String) : String := ⟨s.data.map Char.toLower⟩

/-- Split a character list at the first character satisfying `p`:
returns the characters before it and the remainder (which starts with the
matching character when one exists). -/
def takeUntilChar (p : Char → Bool) : List Char → List Char × List Char
  | [] => ([], [])
  | c :: cs =>
    if p c then ([], c :: cs)
    else
      let r := takeUntilChar p cs
      (c :: r.1, r.2)

/-- True when the pattern `pat` is an initial segment of `l`. -/
def leadsWith : List Char → List Char → Bool
  | [], _ => true
  | _ :: _, [] => false
  | p :: ps, c :: cs => p == c && leadsWith ps cs

/-- True when `pat` occurs contiguously in `s` (model of JavaScript
`String.prototype.includes`). -/
def listContainsSub (pat : List Char) : List Char → Bool
  | [] => pat.isEmpty
  | c :: cs => leadsWith pat (c :: cs) || listContainsSub pat cs

def strContainsSub (s pat : String) : Bool := listContainsSub pat.data s.data

/-! ## URL parsing

Model of the WHATWG `new URL(...)` constructor as used by `normalizeUrl`,
for absolute URLs: `scheme://host[:port][/path][?query][#fragment]` parses
into hostname (lowercased by the parser, userinfo and port removed),
pathname (defaulting to `"/"` when the input has no path), search and hash;
a non-special scheme without `//` yields a path-only value and empty hostname;
anything without a valid `scheme:` head fails to parse (`new URL` throws,
modelled as `none`). -/

structure ParsedUrl where
  hostname : String
  pathname : String
  search : String
  hash : String
deriving DecidableEq, Repr

def isSchemeChar (c : Char) : Bool := c.isAlpha || c.isDigit || c == '+' || c == '-' || c == '.'

/-- Userinfo (`user:pass@`) is not part of the hostname: keep only what
follows the last `@` of the authority. -/
def dropUserinfo (authority : List Char) : List Char :=
  if authority.contains '@' then (authority.reverse.takeWhile (fun c => !(c == '@'))).reverse
  else authority

def parseUrl (url : String) : Option ParsedUrl :=
  let sp := takeUntilChar (· == ':') url.data
  let scheme := sp.1
  match sp.2 with
  | ':' :: rest =>
    if scheme.isEmpty then none
    else if !((scheme.headD 'a').isAlpha && scheme.all isSchemeChar) then none
    else
      if leadsWith ['/', '/'] rest then
        let ap := takeUntilChar (fun c => c == '/' || c == '?' || c == '#') (rest.drop 2)
        let authority := ap.1
        if authority.isEmpty then none
        else
          let host := (takeUntilChar (· == ':') (dropUserinfo authority)).1
          if host.isEmpty then none
          else
            let pp := takeUntilChar (fun c => c == '?' || c == '#') ap.2
            let qp := takeUntilChar (· == '#') pp.2
            some ⟨jsToLowerCase ⟨host⟩, if pp.1.isEmpty then "/" else ⟨pp.1⟩, ⟨qp.1⟩, ⟨qp.2⟩⟩
      else
        let pp := takeUntilChar (fun c => c == '?' || c == '#') rest
        let qp := takeUntilChar (· == '#') pp.2
        some ⟨"", ⟨pp.1⟩, ⟨qp.1⟩, ⟨qp.2⟩⟩
  | _ => none

/-! ## Source registry: URL normalization and deduplication
(`psf-research.agent.ts`, current version) -/

structure ResearchSource where
  title : String
  url : String
deriving DecidableEq, Repr

/-- Model of the regex replacement `.replace(/\/+$/, "")`: remove the
maximal run of trailing slashes. -/
def stripTrailingSlashes (s : String) : String :=
  ⟨(s.data.reverse.dropWhile (fun c => c == '/')).reverse⟩

/-- Function `normalizeUrl` from `psf-research.agent.ts`: on a parseable URL, take
hostname + pathname with trailing slashes removed and lowercase it (query
and fragment are dropped); if `new URL` throws, return the input
lowercased. -/
def normalizeUrl (url : String) : String :=
  match parseUrl url with
  | some u => jsToLowerCase (u.hostname ++ stripTrailingSlashes u.pathname)
  | none => jsToLowerCase url

/-- The normalization algorithm as the specification words it: identical to
`normalizeUrl` except that an empty stripped path defaults to `"/"`.
Stated from the spec sentence for comparison with the source algorithm. -/
def normalizeUrlClaimed (url : String) : String :=
  match parseUrl url with
  | some u =>
    let stripped := stripTrailingSlashes u.pathname
    jsToLowerCase (u.hostname ++ (if stripped.isEmpty then "/" else stripped))
  | none => jsToLowerCase url

/-- The loop body of `collectAllSources`: walk the concatenated source
list, keeping a source only when its normalized URL has not been seen
(models the insertion-ordered `Map` keyed by normalized URL whose values
are returned). -/
def dedupeSourcesAux : List ResearchSource → List String → List ResearchSource
  | [], _ => []
  | s :: rest, seen =>
    if seen.contains (normalizeUrl s.url) then dedupeSourcesAux rest seen
    else s :: dedupeSourcesAux rest (normalizeUrl s.url :: seen)

def dedupeSources (sources : List ResearchSource) : List ResearchSource :=
  dedupeSourcesAux sources []

structure SectionResearch where
  content : String
  sources : List ResearchSource
  searchQueries : List String
deriving DecidableEq, Repr

/-- Function `collectAllSources` from `psf-research.agent.ts`: concatenate
the source lists of the three stages in order and deduplicate by normalized URL, first
occurrence winning. -/
def collectAllSources (problemEvidence competitorAnalysis marketSignals : SectionResearch) :
    List ResearchSource :=
  dedupeSources (problemEvidence.sources ++ competitorAnalysis.sources ++ marketSignals.sources)

/-! ## Synthesis value and schema (`psf.schema.ts`) -/

inductive Verdict where
  | STRONG
  | MODERATE
  | WEAK
deriving DecidableEq, Repr

structure SectionAnalysis where
  score : Nat
  keyFindings : List String
  concerns : List String
deriving DecidableEq, Repr

structure SynthesisSections where
  problemEvidence : SectionAnalysis
  competitorAnalysis : SectionAnalysis
  marketSignals : SectionAnalysis
deriving DecidableEq, Repr

structure PSFSynthesis where
  summaryScore : Nat
  summaryVerdict : Verdict
  summaryPoints : List String
  sections : SynthesisSections
  recommendations : List String
deriving DecidableEq, Repr

/-- The bounds `sectionAnalysisSchema` of `psf.schema.ts` places on a
section analysis: score between 1 and 10 (the verdict enum and the string
arrays carry no further zod constraints). -/
def sectionAnalysisSchemaOk (s : SectionAnalysis) : Prop :=
  1 ≤ s.score ∧ s.score ≤ 10

/-- The bounds `psfSynthesisSchema` of `psf.schema.ts` places on a
synthesis value: summary score 1..10, 3..5 summary points, every section
score 1..10, and 3..5 recommendations. -/
def psfSynthesisSchemaOk (p : PSFSynthesis) : Prop :=
  (1 ≤ p.summaryScore ∧ p.summaryScore ≤ 10) ∧
  (3 ≤ p.summaryPoints.length ∧ p.summaryPoints.length ≤ 5) ∧
  sectionAnalysisSchemaOk p.sections.problemEvidence ∧
  sectionAnalysisSchemaOk p.sections.competitorAnalysis ∧
  sectionAnalysisSchemaOk p.sections.marketSignals ∧
  (3 ≤ p.recommendations.length ∧ p.recommendations.length ≤ 5)

instance (s : SectionAnalysis) : Decidable (sectionAnalysisSchemaOk s) := by
  unfold sectionAnalysisSchemaOk
  infer_instance

instance (p : PSFSynthesis) : Decidable (psfSynthesisSchemaOk p) := by
  unfold psfSynthesisSchemaOk
  infer_instance

/-- The value `FALLBACK_SYNTHESIS` from `psf-research.agent.ts`, field for
field. -/
def FALLBACK_SYNTHESIS : PSFSynthesis :=
  ⟨5, .MODERATE,
   ["Research completed but synthesis failed to generate properly",
    "Please review the raw research data for detailed findings",
    "Consider re-running the analysis"],
   ⟨⟨5, ["See raw research data"], ["Synthesis generation failed"]⟩,
    ⟨5, ["See raw research data"], ["Synthesis generation failed"]⟩,
    ⟨5, ["See raw research data"], ["Synthesis generation failed"]⟩⟩,
   ["Review the raw research data manually",
    "Re-run the synthesis if needed",
    "Check the AI service logs for errors"]⟩

/-- Function `synthesizeReport` from `psf-research.agent.ts`, abstracted
over the outcome of the structured `generateStructuredOutput` call: the
value of a successful call is returned as-is, any rejection is swallowed
and replaced by `FALLBACK_SYNTHESIS`. -/
def synthesizeReport (structuredCall : Except String PSFSynthesis) : PSFSynthesis :=
  match structuredCall with
  | .ok s => s
  | .error _ => FALLBACK_SYNTHESIS

/-! ## Research orchestrator (`conductPSFResearch`)

The three grounded stage calls and the structured synthesis call are
abstracted as oracle outcomes (`StageOutcomes`). `conductPSFResearch`
returns the promise outcome together with the ordered list of
`(step, progress)` pairs passed to the awaited `onProgress` callback before
the promise settled. -/

structure PSFResearchResult where
  problemEvidence : SectionResearch
  competitorAnalysis : SectionResearch
  marketSignals : SectionResearch
  synthesis : PSFSynthesis
  allSources : List ResearchSource
deriving DecidableEq, Repr

structure StageOutcomes where
  problem : Except String SectionResearch
  competitor : Except String SectionResearch
  market : Except String SectionResearch
  synthesis : Except String PSFSynthesis

def conductPSFResearch (env : StageOutcomes) :
    Except String PSFResearchResult × List (String × Nat) :=
  let ev1 := [("Researching problem evidence...", 10)]
  match env.problem with
  | .error e => (.error e, ev1)
  | .ok problemEvidence =>
    let ev2 := ev1 ++ [("Problem evidence research complete", 30), ("Analyzing competitors...", 35)]
    match env.competitor with
    | .error e => (.error e, ev2)
    | .ok competitorAnalysis =>
      let ev3 := ev2 ++ [("Competitor analysis complete", 60), ("Researching market signals...", 65)]
      match env.market with
      | .error e => (.error e, ev3)
      | .ok marketSignals =>
        let ev4 := ev3 ++ [("Market signals research complete", 80), ("Synthesizing final report...", 85)]
        let synthesis := synthesizeReport env.synthesis
        let ev5 := ev4 ++ [("Report synthesis complete", 100)]
        let allSources := collectAllSources problemEvidence competitorAnalysis marketSignals
        (.ok ⟨problemEvidence, competitorAnalysis, marketSignals, synthesis, allSources⟩, ev5)

/-! ## Validation tasks and the prompt context block
(`validation.types.ts`, `psf-analysis.prompt.ts`) -/

structure ValidationTask where
  id : String
  frameworkId : String
  category : String
  title : String
  description : String
  helpText : Option String
  isRequired : Bool
  isCompleted : Bool
  answer : Option String
  priority : Int
  completedAt : Option Nat
deriving DecidableEq, Repr

/-- JavaScript truthiness of the nullable `answer` field: `null` and the
empty string are falsy, every other string is truthy. -/
def answerTruthy : Option String → Bool
  | none => false
  | some s => !(s == "")

/-- Function `buildContextFromTasks` from `psf-analysis.prompt.ts`: keep
the tasks
passing `t.isCompleted && t.answer` (JavaScript truthiness), render each as
a markdown heading with its title followed by its answer, and join the
entries with blank lines. -/
def buildContextFromTasks (tasks : List ValidationTask) : String :=
  String.intercalate "\n\n"
    ((tasks.filter (fun t => t.isCompleted && answerTruthy t.answer)).map
      (fun t => "## " ++ t.title ++ "\n" ++ t.answer.getD ""))

/-- The context block as the specification words it: filtered only on
completion and a non-null answer. Stated from the spec sentence for
comparison with the source function. -/
def buildContextFromTasksClaimed (tasks : List ValidationTask) : String :=
  String.intercalate "\n\n"
    ((tasks.filter (fun t => t.isCompleted && t.answer.isSome)).map
      (fun t => "## " ++ t.title ++ "\n" ++ t.answer.getD ""))

/-! ## Queue configuration (`queue.ts`) and the research worker
(`research.worker.ts`)

The Prisma writes of the worker are embedded as an explicit trace of
`WorkerOp` operations, interpreted over a `DbState` holding the Job
record, Framework record and optional Report of the one framework; the
native per-job progress of BullMQ is a plain counter. Timestamps (`new Date()`) are
abstract clock ticks: the n-th `new Date()` of a run returns `t0 + n`. -/

def DEFAULT_JOB_TIMEOUT : Nat := 30 * 60 * 1000

structure ResearchJobData where
  frameworkId : String
  projectId : String
  projectDescription : String
  maxDuration : Option Nat
deriving DecidableEq, Repr

/-- Model of `maxDuration || DEFAULT_JOB_TIMEOUT`: JavaScript `||` falls
through on
`undefined` and on the falsy value `0`. -/
def resolveTimeout (maxDuration : Option Nat) : Nat :=
  match maxDuration with
  | some d => if d == 0 then DEFAULT_JOB_TIMEOUT else d
  | none => DEFAULT_JOB_TIMEOUT

/-- Model of JavaScript `Math.round(num / den)` on nonnegative inputs
(round half away from zero). -/
def jsRoundDiv (num den : Nat) : Nat := (2 * num + den) / (2 * den)

/-- The message `withTimeout` rejects with, as built at the call site in
`processResearchJob`. -/
def timeoutErrorMessage (timeoutMs : Nat) : String :=
  "Research timed out after " ++ toString (jsRoundDiv timeoutMs 60000) ++ " minutes"

inductive JobStatus where
  | QUEUED
  | ACTIVE
  | COMPLETED
  | FAILED
deriving DecidableEq, Repr

inductive FrameworkStatus where
  | PENDING_INFO
  | READY
  | IN_PROGRESS
  | COMPLETED
  | FAILED
deriving DecidableEq, Repr

/-- The optional fields passed to `updateJobStatus`; `none` means the field
is absent from the field-wise update. -/
structure JobUpdateFields where
  bullJobId : Option String
  progress : Option Nat
  currentStep : Option String
  error : Option String
  startedAt : Option Nat
  completedAt : Option Nat
deriving DecidableEq, Repr

/-- The optional fields passed to `updateFrameworkStatus`. -/
structure FrameworkUpdateFields where
  startedAt : Option Nat
  completedAt : Option Nat
deriving DecidableEq, Repr

/-- One section of the `sections` JSON of the report: the synthesis
section analysis spread together with the content and sources of the
stage. -/
structure StoredSection where
  score : Nat
  keyFindings : List String
  concerns : List String
  content : String
  sources : List ResearchSource
deriving DecidableEq, Repr

/-- The value `storeResearchReport` upserts, keyed by the framework id. -/
structure ReportRecord where
  frameworkId : String
  summaryScore : Nat
  summaryVerdict : Verdict
  summaryPoints : List String
  problemEvidence : StoredSection
  competitorAnalysis : StoredSection
  marketSignals : StoredSection
  recommendations : List String
  sourcesCount : Nat
  rawProblemEvidence : SectionResearch
  rawCompetitorAnalysis : SectionResearch
  rawMarketSignals : SectionResearch
  rawAllSources : List ResearchSource
deriving DecidableEq, Repr

/-- The construction in `storeResearchReport` of the upserted record from
the orchestrator result (`sectionsData`, `sourcesCount`, `rawDataObj`). -/
def buildReportRecord (frameworkId : String) (result : PSFResearchResult) : ReportRecord :=
  ⟨frameworkId,
   result.synthesis.summaryScore,
   result.synthesis.summaryVerdict,
   result.synthesis.summaryPoints,
   ⟨result.synthesis.sections.problemEvidence.score,
    result.synthesis.sections.problemEvidence.keyFindings,
    result.synthesis.sections.problemEvidence.concerns,
    result.problemEvidence.content, result.problemEvidence.sources⟩,
   ⟨result.synthesis.sections.competitorAnalysis.score,
    result.synthesis.sections.competitorAnalysis.keyFindings,
    result.synthesis.sections.competitorAnalysis.concerns,
    result.competitorAnalysis.content, result.competitorAnalysis.sources⟩,
   ⟨result.synthesis.sections.marketSignals.score,
    result.synthesis.sections.marketSignals.keyFindings,
    result.synthesis.sections.marketSignals.concerns,
    result.marketSignals.content, result.marketSignals.sources⟩,
   result.synthesis.recommendations,
   result.allSources.length,
   result.problemEvidence, result.competitorAnalysis, result.marketSignals,
   result.allSources⟩

/-- One externally visible effect of the worker, in program order. -/
inductive WorkerOp where
  | updateJobStatus (status : JobStatus) (fields : JobUpdateFields)
  | updateFrameworkStatus (status : FrameworkStatus) (fields : FrameworkUpdateFields)
  | upsertReport (report : ReportRecord)
  | loadFrameworkTasks
  | updateQueueProgress (progress : Nat)
deriving DecidableEq, Repr

/-- The framework row the `findUnique` of the worker sees, with its tasks
(in arbitrary storage order) and the description of the linked project. -/
structure FrameworkData where
  tasks : List ValidationTask
  projectDescription : String

/-- Function `getFrameworkTasks` orders tasks by priority ascending in its
Prisma
query; embedded as a stable sort of the stored rows. Throws when the
framework row is absent. -/
def getFrameworkTasks (frameworkId : String) (framework : Option FrameworkData) :
    Except String (List ValidationTask × String) :=
  match framework with
  | none => .error ("Framework not found: " ++ frameworkId)
  | some fw =>
    .ok (fw.tasks.insertionSort (fun a b => a.priority ≤ b.priority), fw.projectDescription)

/-- The oracle inputs of one worker run: the framework row, the outcomes of
the external calls of the agent, whether (and after how many progress
events)
the `withTimeout` timer won the race, and whether the report upsert
rejected. -/
structure WorkerEnv where
  framework : Option FrameworkData
  stages : StageOutcomes
  timerFiresAfter : Option Nat
  reportStoreFails : Option String

/-- The two writes the progress callback of the worker performs per event:
BullMQ progress, then the durable Job row (status stays ACTIVE). -/
def progressOps : List (String × Nat) → List WorkerOp
  | [] => []
  | (step, p) :: rest =>
    .updateQueueProgress p ::
    .updateJobStatus .ACTIVE ⟨none, some p, some step, none, none, none⟩ ::
    progressOps rest

/-- The catch block of `processResearchJob`: Job FAILED with the error
message and a completion timestamp, then Framework FAILED (no fields). -/
def failureOps (msg : String) (t : Nat) : List WorkerOp :=
  [.updateJobStatus .FAILED ⟨none, none, none, some msg, none, some t⟩,
   .updateFrameworkStatus .FAILED ⟨none, none⟩]

/-- Function `processResearchJob` from `research.worker.ts`: returns the
promise
outcome (`.error` models the re-thrown exception that triggers BullMQ
retry) and the ordered trace of effects. -/
def processResearchJob (data : ResearchJobData) (bullJobId : String) (env : WorkerEnv)
    (t0 : Nat) : Except String Unit × List WorkerOp :=
  let timeout := resolveTimeout data.maxDuration
  let headOps : List WorkerOp :=
    [.updateJobStatus .ACTIVE ⟨some bullJobId, none, some "Initializing research...", none, some t0, none⟩,
     .loadFrameworkTasks]
  match getFrameworkTasks data.frameworkId env.framework with
  | .error msg => (.error msg, headOps ++ failureOps msg (t0 + 1))
  | .ok _ =>
    let run := conductPSFResearch env.stages
    match env.timerFiresAfter with
    | some k =>
      let msg := timeoutErrorMessage timeout
      (.error msg, headOps ++ progressOps (run.2.take k) ++ failureOps msg (t0 + 1))
    | none =>
      match run.1 with
      | .error e => (.error e, headOps ++ progressOps run.2 ++ failureOps e (t0 + 1))
      | .ok result =>
        match env.reportStoreFails with
        | some msg => (.error msg, headOps ++ progressOps run.2 ++ failureOps msg (t0 + 1))
        | none =>
          (.ok (),
           headOps ++ progressOps run.2 ++
           [.upsertReport (buildReportRecord data.frameworkId result),
            .updateJobStatus .COMPLETED ⟨none, some 100, some "Research complete", none, none, some (t0 + 1)⟩,
            .updateFrameworkStatus .COMPLETED ⟨none, some (t0 + 2)⟩])

/-! ## Interpreting a worker trace against the durable state -/

structure JobRecord where
  bullJobId : Option String
  status : JobStatus
  progress : Nat
  currentStep : Option String
  error : Option String
  startedAt : Option Nat
  completedAt : Option Nat
deriving DecidableEq, Repr

structure FrameworkRecord where
  status : FrameworkStatus
  startedAt : Option Nat
  completedAt : Option Nat
deriving DecidableEq, Repr

structure DbState where
  job : JobRecord
  framework : FrameworkRecord
  report : Option ReportRecord
  queueProgress : Nat
deriving DecidableEq, Repr

/-- Partial-update semantics of a Prisma `update`: a provided field
overwrites, an absent one is left alone. -/
def mergeField {α : Type} (old upd : Option α) : Option α :=
  match upd with
  | some v => some v
  | none => old

def applyJobUpdate (j : JobRecord) (status : JobStatus) (f : JobUpdateFields) : JobRecord :=
  ⟨mergeField j.bullJobId f.bullJobId, status,
   (match f.progress with | some p => p | none => j.progress),
   mergeField j.currentStep f.currentStep, mergeField j.error f.error,
   mergeField j.startedAt f.startedAt, mergeField j.completedAt f.completedAt⟩

def applyFrameworkUpdate (fw : FrameworkRecord) (status : FrameworkStatus)
    (f : FrameworkUpdateFields) : FrameworkRecord :=
  ⟨status, mergeField fw.startedAt f.startedAt, mergeField fw.completedAt f.completedAt⟩

def applyOp (db : DbState) : WorkerOp → DbState
  | .updateJobStatus status f => ⟨applyJobUpdate db.job status f, db.framework, db.report, db.queueProgress⟩
  | .updateFrameworkStatus status f => ⟨db.job, applyFrameworkUpdate db.framework status f, db.report, db.queueProgress⟩
  | .upsertReport r => ⟨db.job, db.framework, some r, db.queueProgress⟩
  | .loadFrameworkTasks => db
  | .updateQueueProgress p => ⟨db.job, db.framework, db.report, p⟩

def applyOps (db : DbState) (ops : List WorkerOp) : DbState :=
  ops.foldl applyOp db

/-- The durable state when the worker dequeues a fresh run: the Job row was
created QUEUED, the Framework was flipped IN_PROGRESS by `startResearch`,
and no Report exists yet. -/
def initialDb : DbState :=
  ⟨⟨none, .QUEUED, 0, none, none, none, none⟩, ⟨.IN_PROGRESS, none, none⟩, none, 0⟩

/-- The durable state after a worker run, from a fresh initial state. -/
def runWorkerDb (data : ResearchJobData) (bullJobId : String) (env : WorkerEnv)
    (t0 : Nat) : DbState :=
  applyOps initialDb (processResearchJob data bullJobId env t0).2

/-! ## Trace predicates used to state the claims -/

def isUpsertOp : WorkerOp → Bool
  | .upsertReport _ => true
  | _ => false

def isActiveJobUpdate : WorkerOp → Bool
  | .updateJobStatus .ACTIVE _ => true
  | _ => false

def isLoadOp : WorkerOp → Bool
  | .loadFrameworkTasks => true
  | _ => false

/-- Boolean form of the claimed ordering "the load step precedes the first
ACTIVE transition" over a worker trace. -/
def loadPrecedesActiveB (ops : List WorkerOp) : Bool :=
  match ops.findIdx? isLoadOp, ops.findIdx? isActiveJobUpdate with
  | some i, some j => decide (i < j)
  | _, _ => false

/-- An op that marks the durable Job row COMPLETED. -/
def opSetsCompleted : WorkerOp → Bool
  | .updateJobStatus .COMPLETED _ => true
  | _ => false

/-- Safety property of a trace: at every prefix of the run, if the durable
Job row reads COMPLETED then the Report row exists. -/
def completedImpliesReport (db : DbState) (ops : List WorkerOp) : Prop :=
  ∀ n, (applyOps db (ops.take n)).job.status = .COMPLETED →
    (applyOps db (ops.take n)).report.isSome = true

/-! ## Concrete fixtures used by witnesses and counterexamples -/

def sampleSection : SectionResearch := ⟨"findings", [], []⟩

def sampleFramework : FrameworkData := ⟨[], "a startup idea"⟩

def sampleJobData : ResearchJobData := ⟨"fw-1", "p-1", "a startup idea", none⟩

/-- A run in which the three grounded stages succeed and the structured
synthesis call rejects. -/
def sampleEnvOk : WorkerEnv :=
  ⟨some sampleFramework, ⟨.ok sampleSection, .ok sampleSection, .ok sampleSection,
    .error "synthesis failed"⟩, none, none⟩

/-- A run dequeued for a framework that does not exist. -/
def sampleEnvMissing : WorkerEnv :=
  ⟨none, ⟨.error "unused", .error "unused", .error "unused", .error "unused"⟩, none, none⟩

/-- A run whose timeout timer fires before any progress event. -/
def sampleEnvTimeout : WorkerEnv :=
  ⟨some sampleFramework, ⟨.ok sampleSection, .ok sampleSection, .ok sampleSection,
    .error "x"⟩, some 0, none⟩

/-- A completed task whose answer is the empty string: non-null, yet falsy
in JavaScript. -/
def emptyAnswerTask : ValidationTask :=
  ⟨"task-1", "fw-1", "TARGET_CUSTOMER", "Define target customer", "desc", none,
   true, true, some "", 1, none⟩

instance : IsTotal ValidationTask (fun a b => a.priority ≤ b.priority) :=
  ⟨fun a b => Int.le_total a.priority b.priority⟩

instance : IsTrans ValidationTask (fun a b => a.priority ≤ b.priority) :=
  ⟨fun _ _ _ h1 h2 => le_trans h1 h2⟩

/-! ## Helper lemmas: deduplication -/

lemma contains_iff_mem (l : List String) (a : String) : l.contains a = true ↔ a ∈ l := by
  simp [List.contains]

lemma dedupeSourcesAux_sublist (l : List ResearchSource) :
    ∀ seen, (dedupeSourcesAux l seen).Sublist l := by
  induction l with
  | nil => intro seen; simp [dedupeSourcesAux]
  | cons s rest ih =>
    intro seen
    by_cases h : seen.contains (normalizeUrl s.url) = true
    · simp only [dedupeSourcesAux]
      rw [if_pos h]
      exact (ih seen).cons s
    · simp only [dedupeSourcesAux]
      rw [if_neg h]
      exact (ih _).cons₂ s

lemma mem_dedupeSourcesAux_not_seen (l : List ResearchSource) :
    ∀ seen x, x ∈ dedupeSourcesAux l seen → normalizeUrl x.url ∉ seen := by
  induction l with
  | nil => intro seen x hx; simp [dedupeSourcesAux] at hx
  | cons s rest ih =>
    intro seen x hx
    by_cases h : seen.contains (normalizeUrl s.url) = true
    · rw [show dedupeSourcesAux (s :: rest) seen = dedupeSourcesAux rest seen by
        simp only [dedupeSourcesAux]; rw [if_pos h]] at hx
      exact ih seen x hx
    · rw [show dedupeSourcesAux (s :: rest) seen =
          s :: dedupeSourcesAux rest (normalizeUrl s.url :: seen) by
        simp only [dedupeSourcesAux]; rw [if_neg h]] at hx
      rcases List.mem_cons.mp hx with hx | hx
      · subst hx
        intro hmem
        exact h ((contains_iff_mem _ _).mpr hmem)
      · intro hmem
        exact ih _ x hx (List.mem_cons_of_mem _ hmem)

lemma dedupeSourcesAux_nodup (l : List ResearchSource) :
    ∀ seen, ((dedupeSourcesAux l seen).map (fun s => normalizeUrl s.url)).Nodup := by
  induction l with
  | nil => intro seen; simp [dedupeSourcesAux]
  | cons s rest ih =>
    intro seen
    by_cases h : seen.contains (normalizeUrl s.url) = true
    · rw [show dedupeSourcesAux (s :: rest) seen = dedupeSourcesAux rest seen by
        simp only [dedupeSourcesAux]; rw [if_pos h]]
      exact ih seen
    · rw [show dedupeSourcesAux (s :: rest) seen =
          s :: dedupeSourcesAux rest (normalizeUrl s.url :: seen) by
        simp only [dedupeSourcesAux]; rw [if_neg h]]
      rw [List.map_cons, List.nodup_cons]
      refine ⟨?_, ih _⟩
      intro hmem
      rcases List.mem_map.mp hmem with ⟨x, hx, hxeq⟩
      exact mem_dedupeSourcesAux_not_seen rest _ x hx (hxeq ▸ List.mem_cons_self _ _)

lemma dedupeSourcesAux_complete (l : List ResearchSource) :
    ∀ seen s, s ∈ l → normalizeUrl s.url ∉ seen →
      ∃ t, t ∈ dedupeSourcesAux l seen ∧ normalizeUrl t.url = normalizeUrl s.url := by
  induction l with
  | nil => intro seen s hs; simp at hs
  | cons x rest ih =>
    intro seen s hs hseen
    by_cases h : seen.contains (normalizeUrl x.url) = true
    · rw [show dedupeSourcesAux (x :: rest) seen = dedupeSourcesAux rest seen by
        simp only [dedupeSourcesAux]; rw [if_pos h]]
      rcases List.mem_cons.mp hs with hs | hs
      · subst hs
        exact absurd ((contains_iff_mem _ _).mp h) hseen
      · exact ih seen s hs hseen
    · rw [show dedupeSourcesAux (x :: rest) seen =
          x :: dedupeSourcesAux rest (normalizeUrl x.url :: seen) by
        simp only [dedupeSourcesAux]; rw [if_neg h]]
      by_cases heq : normalizeUrl s.url = normalizeUrl x.url
      · exact ⟨x, List.mem_cons_self _ _, heq.symm⟩
      · rcases List.mem_cons.mp hs with hs | hs
        · subst hs
          exact absurd rfl heq
        · have hnotin : normalizeUrl s.url ∉ normalizeUrl x.url :: seen := by
            intro hmem
            rcases List.mem_cons.mp hmem with hmem | hmem
            · exact heq hmem
            · exact hseen hmem
          rcases ih (normalizeUrl x.url :: seen) s hs hnotin with ⟨t, ht, hteq⟩
          exact ⟨t, List.mem_cons_of_mem _ ht, hteq⟩

lemma dedupeSourcesAux_idem (l : List ResearchSource) :
    ∀ seen, dedupeSourcesAux (dedupeSourcesAux l seen) seen = dedupeSourcesAux l seen := by
  induction l with
  | nil => intro seen; simp [dedupeSourcesAux]
  | cons s rest ih =>
    intro seen
    have hcons : seen.contains (normalizeUrl s.url) = true →
        dedupeSourcesAux (s :: rest) seen = dedupeSourcesAux rest seen := by
      intro h; simp only [dedupeSourcesAux]; rw [if_pos h]
    by_cases h : seen.contains (normalizeUrl s.url) = true
    · rw [hcons h]
      exact ih seen
    · rw [show dedupeSourcesAux (s :: rest) seen =
          s :: dedupeSourcesAux rest (normalizeUrl s.url :: seen) by
        simp only [dedupeSourcesAux]; rw [if_neg h]]
      rw [show dedupeSourcesAux (s :: dedupeSourcesAux rest (normalizeUrl s.url :: seen)) seen =
          s :: dedupeSourcesAux (dedupeSourcesAux rest (normalizeUrl s.url :: seen))
            (normalizeUrl s.url :: seen) by
        simp only [dedupeSourcesAux]; rw [if_neg h]]
      rw [ih (normalizeUrl s.url :: seen)]

lemma dedupeSources_idem (l : List ResearchSource) :
    dedupeSources (dedupeSources l) = dedupeSources l :=
  dedupeSourcesAux_idem l []

/-! ## Helper lemmas: worker traces -/

lemma applyOps_append (db : DbState) (l1 l2 : List WorkerOp) :
    applyOps db (l1 ++ l2) = applyOps (applyOps db l1) l2 :=
  List.foldl_append _ _ _ _

lemma opSetsCompleted_progressOps (evs : List (String × Nat)) :
    ∀ op ∈ progressOps evs, opSetsCompleted op = false := by
  induction evs with
  | nil => intro op hop; simp [progressOps] at hop
  | cons e rest ih =>
    intro op hop
    rcases e with ⟨step, p⟩
    simp only [progressOps, List.mem_cons] at hop
    rcases hop with h | h | h
    · subst h; rfl
    · subst h; rfl
    · exact ih op h

lemma notCompleted_applyOp (db : DbState) (op : WorkerOp)
    (hop : opSetsCompleted op = false) (hdb : db.job.status ≠ .COMPLETED) :
    (applyOp db op).job.status ≠ .COMPLETED := by
  cases op with
  | updateJobStatus status f =>
    cases status with
    | COMPLETED => exact absurd hop (by simp [opSetsCompleted])
    | QUEUED => simp [applyOp, applyJobUpdate]
    | ACTIVE => simp [applyOp, applyJobUpdate]
    | FAILED => simp [applyOp, applyJobUpdate]
  | updateFrameworkStatus status f => exact hdb
  | upsertReport r => exact hdb
  | loadFrameworkTasks => exact hdb
  | updateQueueProgress p => exact hdb

lemma notCompleted_applyOps (ops : List WorkerOp) :
    ∀ db, (∀ op ∈ ops, opSetsCompleted op = false) → db.job.status ≠ .COMPLETED →
      (applyOps db ops).job.status ≠ .COMPLETED := by
  induction ops with
  | nil => intro db _ hdb; exact hdb
  | cons op rest ih =>
    intro db hops hdb
    exact ih (applyOp db op)
      (fun o ho => hops o (List.mem_cons_of_mem _ ho))
      (notCompleted_applyOp db op (hops op (List.mem_cons_self _ _)) hdb)

lemma report_stays_applyOps (ops : List WorkerOp) :
    ∀ db, db.report.isSome = true → (applyOps db ops).report.isSome = true := by
  induction ops with
  | nil => intro db h; exact h
  | cons op rest ih =>
    intro db h
    refine ih (applyOp db op) ?_
    cases op with
    | updateJobStatus status f => exact h
    | updateFrameworkStatus status f => exact h
    | upsertReport r => simp [applyOp]
    | loadFrameworkTasks => exact h
    | updateQueueProgress p => exact h

lemma completedImpliesReport_of_no_complete (db : DbState) (ops : List WorkerOp)
    (hops : ∀ op ∈ ops, opSetsCompleted op = false)
    (hdb : db.job.status ≠ .COMPLETED) : completedImpliesReport db ops := by
  intro n hc
  exact absurd hc
    (notCompleted_applyOps (ops.take n) db
      (fun op hop => hops op (List.take_subset n ops hop)) hdb)

lemma completedImpliesReport_append (db : DbState) (l1 l2 : List WorkerOp)
    (h1 : completedImpliesReport db l1)
    (h2 : completedImpliesReport (applyOps db l1) l2) :
    completedImpliesReport db (l1 ++ l2) := by
  intro n
  rw [List.take_append_eq_append_take, applyOps_append]
  rcases le_or_lt n l1.length with hle | hlt
  · have hz : n - l1.length = 0 := Nat.sub_eq_zero_of_le hle
    rw [hz]
    simpa [applyOps] using h1 n
  · rw [List.take_of_length_le (le_of_lt hlt)]
    exact h2 (n - l1.length)

lemma completedImpliesReport_upsert_head (db : DbState) (r : ReportRecord)
    (rest : List WorkerOp) (hdb : db.job.status ≠ .COMPLETED) :
    completedImpliesReport db (WorkerOp.upsertReport r :: rest) := by
  intro n
  cases n with
  | zero => intro hc; exact absurd hc hdb
  | succ m =>
    intro _
    rw [List.take_succ_cons]
    have : (applyOp db (WorkerOp.upsertReport r)).report.isSome = true := by simp [applyOp]
    simpa [applyOps] using report_stays_applyOps (rest.take m) _ this

/-- The final durable state of any run whose trace ends with the catch
two writes of the catch block. -/
lemma final_state_failure (db : DbState) (l : List WorkerOp) (msg : String) (t : Nat) :
    (applyOps db (l ++ failureOps msg t)).job.status = .FAILED ∧
    (applyOps db (l ++ failureOps msg t)).job.error = some msg ∧
    (applyOps db (l ++ failureOps msg t)).job.completedAt = some t ∧
    (applyOps db (l ++ failureOps msg t)).framework.status = .FAILED ∧
    (applyOps db (l ++ failureOps msg t)).report = (applyOps db l).report := by
  rw [applyOps_append]
  simp [applyOps, failureOps, applyOp, applyJobUpdate, applyFrameworkUpdate, mergeField]

lemma report_unchanged_progressOps (evs : List (String × Nat)) :
    ∀ db, (applyOps db (progressOps evs)).report = db.report := by
  induction evs with
  | nil => intro db; rfl
  | cons e rest ih =>
    intro db
    rcases e with ⟨step, p⟩
    simp only [progressOps, applyOps, List.foldl_cons]
    exact ih _

lemma head_and_progress_no_complete (jid : String) (t0 : Nat) (evs : List (String × Nat)) :
    ∀ op ∈ ([WorkerOp.updateJobStatus .ACTIVE
        ⟨some jid, none, some "Initializing research...", none, some t0, none⟩,
        WorkerOp.loadFrameworkTasks] ++ progressOps evs),
      opSetsCompleted op = false := by
  intro op hop
  rcases List.mem_append.mp hop with h | h
  · simp only [List.mem_cons, List.not_mem_nil, or_false] at h
    rcases h with rfl | rfl <;> rfl
  · exact opSetsCompleted_progressOps evs op h

lemma no_complete_append_failureOps (l : List WorkerOp) (msg : String) (t : Nat)
    (hl : ∀ op ∈ l, opSetsCompleted op = false) :
    ∀ op ∈ l ++ failureOps msg t, opSetsCompleted op = false := by
  intro op hop
  rcases List.mem_append.mp hop with h | h
  · exact hl op h
  · simp only [failureOps, List.mem_cons, List.not_mem_nil, or_false] at h
    rcases h with rfl | rfl <;> rfl

/-- Every trace of `processResearchJob` is a COMPLETED-free trace followed
either by the failure writes of the catch block or by the success tail whose
first op is the report upsert. -/
lemma processResearchJob_trace_shape (data : ResearchJobData) (jid : String) (env : WorkerEnv)
    (t0 : Nat) :
    (∃ l msg t, (∀ op ∈ l, opSetsCompleted op = false) ∧
      (processResearchJob data jid env t0).2 = l ++ failureOps msg t) ∨
    (∃ l r t, (∀ op ∈ l, opSetsCompleted op = false) ∧
      (processResearchJob data jid env t0).2 =
        l ++ [WorkerOp.upsertReport r,
          WorkerOp.updateJobStatus .COMPLETED ⟨none, some 100, some "Research complete", none, none, some t⟩,
          WorkerOp.updateFrameworkStatus .COMPLETED ⟨none, some (t + 1)⟩]) := by
  obtain ⟨fwo, stages, timer, sfail⟩ := env
  cases fwo with
  | none =>
    refine Or.inl ⟨[WorkerOp.updateJobStatus .ACTIVE
      ⟨some jid, none, some "Initializing research...", none, some t0, none⟩,
      WorkerOp.loadFrameworkTasks], "Framework not found: " ++ data.frameworkId, t0 + 1, ?_, rfl⟩
    intro op hop
    simp only [List.mem_cons, List.not_mem_nil, or_false] at hop
    rcases hop with rfl | rfl <;> rfl
  | some fw =>
    cases timer with
    | some k =>
      exact Or.inl ⟨_, timeoutErrorMessage (resolveTimeout data.maxDuration), t0 + 1,
        head_and_progress_no_complete jid t0 ((conductPSFResearch stages).2.take k), rfl⟩
    | none =>
      rcases hco : conductPSFResearch stages with ⟨outcome, evs⟩
      cases outcome with
      | error e =>
        refine Or.inl ⟨_, e, t0 + 1, head_and_progress_no_complete jid t0 evs, ?_⟩
        simp only [processResearchJob, getFrameworkTasks, hco]
      | ok result =>
        cases sfail with
        | some msg =>
          refine Or.inl ⟨_, msg, t0 + 1, head_and_progress_no_complete jid t0 evs, ?_⟩
          simp only [processResearchJob, getFrameworkTasks, hco]
        | none =>
          refine Or.inr ⟨_, buildReportRecord data.frameworkId result, t0 + 1,
            head_and_progress_no_complete jid t0 evs, ?_⟩
          simp only [processResearchJob, getFrameworkTasks, hco]

/-- Whatever the environment of the run, the worker trace starts with the
ACTIVE Job update followed by the framework/task load. -/
lemma processResearchJob_take2 (data : ResearchJobData) (jid : String) (env : WorkerEnv)
    (t0 : Nat) :
    (processResearchJob data jid env t0).2.take 2 =
      [WorkerOp.updateJobStatus .ACTIVE
        ⟨some jid, none, some "Initializing research...", none, some t0, none⟩,
       WorkerOp.loadFrameworkTasks] := by
  obtain ⟨fwo, stages, timer, sfail⟩ := env
  cases fwo with
  | none => rfl
  | some fw =>
    cases timer with
    | some k => rfl
    | none =>
      rcases hco : conductPSFResearch stages with ⟨outcome, evs⟩
      cases outcome with
      | error e =>
        simp only [processResearchJob, getFrameworkTasks, hco]
        rfl
      | ok result =>
        cases sfail with
        | some msg =>
          simp only [processResearchJob, getFrameworkTasks, hco]
          rfl
        | none =>
          simp only [processResearchJob, getFrameworkTasks, hco]
          rfl

/-! ## Claim theorems -/

/-- C1: if the structured synthesis call throws for any reason,
`synthesizeReport` swallows the error and returns the fixed fallback
synthesis (summary score 5, verdict MODERATE, canned points/findings), so
`conductPSFResearch` still resolves with a full result carrying the
fallback synthesis; and the fallback value satisfies the synthesis
bounds of the schema (summary score 1..10, 3..5 summary points, section scores
1..10, 3..5 recommendations). -/
theorem synthesizeReport_fallback_on_error (pe ca ms : SectionResearch) (e : String) :
    synthesizeReport (Except.error e) = FALLBACK_SYNTHESIS ∧
    FALLBACK_SYNTHESIS.summaryScore = 5 ∧
    FALLBACK_SYNTHESIS.summaryVerdict = Verdict.MODERATE ∧
    conductPSFResearch ⟨.ok pe, .ok ca, .ok ms, .error e⟩ =
      (Except.ok ⟨pe, ca, ms, FALLBACK_SYNTHESIS, collectAllSources pe ca ms⟩,
       [("Researching problem evidence...", 10), ("Problem evidence research complete", 30),
        ("Analyzing competitors...", 35), ("Competitor analysis complete", 60),
        ("Researching market signals...", 65), ("Market signals research complete", 80),
        ("Synthesizing final report...", 85), ("Report synthesis complete", 100)]) ∧
    psfSynthesisSchemaOk FALLBACK_SYNTHESIS :=
  ⟨rfl, rfl, rfl, rfl, by decide⟩

/-- C2: whenever the four stages complete (a swallowed synthesis failure
included), the awaited progress callback is invoked exactly 8 times, with
the fixed step labels and progress values 10, 30, 35, 60, 65, 80, 85, 100
in that order, and the run resolves successfully. -/
theorem conductPSFResearch_progress_schedule (pe ca ms : SectionResearch)
    (syn : Except String PSFSynthesis) :
    (conductPSFResearch ⟨.ok pe, .ok ca, .ok ms, syn⟩).2 =
      [("Researching problem evidence...", 10), ("Problem evidence research complete", 30),
       ("Analyzing competitors...", 35), ("Competitor analysis complete", 60),
       ("Researching market signals...", 65), ("Market signals research complete", 80),
       ("Synthesizing final report...", 85), ("Report synthesis complete", 100)] ∧
    (conductPSFResearch ⟨.ok pe, .ok ca, .ok ms, syn⟩).2.length = 8 ∧
    (conductPSFResearch ⟨.ok pe, .ok ca, .ok ms, syn⟩).2.map Prod.snd =
      [10, 30, 35, 60, 65, 80, 85, 100] ∧
    (conductPSFResearch ⟨.ok pe, .ok ca, .ok ms, syn⟩).1 =
      Except.ok ⟨pe, ca, ms, synthesizeReport syn, collectAllSources pe ca ms⟩ :=
  ⟨rfl, rfl, rfl, rfl⟩

/-- C3: if any of the three grounded stage calls rejects, the error
propagates out of the orchestrator unchanged and the worker records the
thrown message on the FAILED Job with a completion timestamp, marks the
Framework FAILED, performs no report upsert (so no Report row exists), and
re-throws the same error for the retry logic of the queue. Stated for a failure
of each of the three stages in turn. -/
theorem stage_failure_propagates_and_marks_failed (data : ResearchJobData) (jid : String)
    (t0 : Nat) (fw : FrameworkData) (e : String) (pe ca : SectionResearch)
    (co mk : Except String SectionResearch) (syn : Except String PSFSynthesis) :
    ((conductPSFResearch ⟨.error e, co, mk, syn⟩).1 = Except.error e ∧
     (processResearchJob data jid ⟨some fw, ⟨.error e, co, mk, syn⟩, none, none⟩ t0).1 =
       Except.error e ∧
     (processResearchJob data jid ⟨some fw, ⟨.error e, co, mk, syn⟩, none, none⟩ t0).2.filter
       isUpsertOp = [] ∧
     (runWorkerDb data jid ⟨some fw, ⟨.error e, co, mk, syn⟩, none, none⟩ t0).job.status =
       JobStatus.FAILED ∧
     (runWorkerDb data jid ⟨some fw, ⟨.error e, co, mk, syn⟩, none, none⟩ t0).job.error =
       some e ∧
     (runWorkerDb data jid ⟨some fw, ⟨.error e, co, mk, syn⟩, none, none⟩ t0).job.completedAt =
       some (t0 + 1) ∧
     (runWorkerDb data jid ⟨some fw, ⟨.error e, co, mk, syn⟩, none, none⟩ t0).framework.status =
       FrameworkStatus.FAILED ∧
     (runWorkerDb data jid ⟨some fw, ⟨.error e, co, mk, syn⟩, none, none⟩ t0).report = none) ∧
    ((conductPSFResearch ⟨.ok pe, .error e, mk, syn⟩).1 = Except.error e ∧
     (processResearchJob data jid ⟨some fw, ⟨.ok pe, .error e, mk, syn⟩, none, none⟩ t0).1 =
       Except.error e ∧
     (processResearchJob data jid ⟨some fw, ⟨.ok pe, .error e, mk, syn⟩, none, none⟩ t0).2.filter
       isUpsertOp = [] ∧
     (runWorkerDb data jid ⟨some fw, ⟨.ok pe, .error e, mk, syn⟩, none, none⟩ t0).job.status =
       JobStatus.FAILED ∧
     (runWorkerDb data jid ⟨some fw, ⟨.ok pe, .error e, mk, syn⟩, none, none⟩ t0).job.error =
       some e ∧
     (runWorkerDb data jid ⟨some fw, ⟨.ok pe, .error e, mk, syn⟩, none, none⟩ t0).job.completedAt =
       some (t0 + 1) ∧
     (runWorkerDb data jid ⟨some fw, ⟨.ok pe, .error e, mk, syn⟩, none, none⟩ t0).framework.status =
       FrameworkStatus.FAILED ∧
     (runWorkerDb data jid ⟨some fw, ⟨.ok pe, .error e, mk, syn⟩, none, none⟩ t0).report = none) ∧
    ((conductPSFResearch ⟨.ok pe, .ok ca, .error e, syn⟩).1 = Except.error e ∧
     (processResearchJob data jid ⟨some fw, ⟨.ok pe, .ok ca, .error e, syn⟩, none, none⟩ t0).1 =
       Except.error e ∧
     (processResearchJob data jid ⟨some fw, ⟨.ok pe, .ok ca, .error e, syn⟩, none, none⟩ t0).2.filter
       isUpsertOp = [] ∧
     (runWorkerDb data jid ⟨some fw, ⟨.ok pe, .ok ca, .error e, syn⟩, none, none⟩ t0).job.status =
       JobStatus.FAILED ∧
     (runWorkerDb data jid ⟨some fw, ⟨.ok pe, .ok ca, .error e, syn⟩, none, none⟩ t0).job.error =
       some e ∧
     (runWorkerDb data jid ⟨some fw, ⟨.ok pe, .ok ca, .error e, syn⟩, none, none⟩ t0).job.completedAt =
       some (t0 + 1) ∧
     (runWorkerDb data jid ⟨some fw, ⟨.ok pe, .ok ca, .error e, syn⟩, none, none⟩ t0).framework.status =
       FrameworkStatus.FAILED ∧
     (runWorkerDb data jid ⟨some fw, ⟨.ok pe, .ok ca, .error e, syn⟩, none, none⟩ t0).report = none) :=
  ⟨⟨rfl, rfl, rfl, rfl, rfl, rfl, rfl, rfl⟩,
   ⟨rfl, rfl, rfl, rfl, rfl, rfl, rfl, rfl⟩,
   ⟨rfl, rfl, rfl, rfl, rfl, rfl, rfl, rfl⟩⟩

/-- C5 counterexample: the source `normalizeUrl` does not default an empty
stripped path to `"/"` as the claimed algorithm does: on
`"http://example.com/"` the code yields `"example.com"` while the claimed
algorithm yields `"example.com/"`, so the two differ. -/
theorem normalizeUrl_empty_path_counterexample :
    normalizeUrl "http://example.com/" = "example.com" ∧
    normalizeUrlClaimed "http://example.com/" = "example.com/" ∧
    (normalizeUrl "http://example.com/" == normalizeUrlClaimed "http://example.com/") = false := by
  refine ⟨by decide, by decide, by decide⟩

/-- C5 amended: URL normalization lowercases the URL, keeps host + path
with trailing slashes stripped (an empty path contributes nothing, so
`"http://example.com/"` normalizes to `"example.com"` with no trailing
slash), and drops the query string and fragment entirely; in particular
`"HTTP://Example.com/a/b/"` and `"http://example.com/a/b"` normalize
identically, and `"http://example.com/a?x=1"` and
`"http://example.com/a?y=2"` normalize identically. -/
theorem normalizeUrl_amended_contract :
    normalizeUrl "HTTP://Example.com/a/b/" = normalizeUrl "http://example.com/a/b" ∧
    normalizeUrl "HTTP://Example.com/a/b/" = "example.com/a/b" ∧
    normalizeUrl "http://example.com/a?x=1" = normalizeUrl "http://example.com/a?y=2" ∧
    normalizeUrl "http://example.com/a?x=1" = "example.com/a" ∧
    normalizeUrl "http://example.com/a#frag" = "example.com/a" ∧
    normalizeUrl "http://example.com/" = "example.com" ∧
    ∀ url u, parseUrl url = some u →
      normalizeUrl url = jsToLowerCase (u.hostname ++ stripTrailingSlashes u.pathname) := by
  refine ⟨by decide, by decide, by decide, by decide, by decide, by decide, ?_⟩
  intro url u h
  simp [normalizeUrl, h]

/-- C5 amended, witness: the parse-dependent conjunct applied at a concrete
parseable URL. -/
theorem normalizeUrl_amended_contract_witness :
    normalizeUrl "http://example.com/q/" =
      jsToLowerCase ("example.com" ++ stripTrailingSlashes "/q/") :=
  normalizeUrl_amended_contract.2.2.2.2.2.2 "http://example.com/q/"
    ⟨"example.com", "/q/", "", ""⟩ (by decide)

/-- C6: the merged source list is the deduplication (by normalized URL) of
the concatenation problem evidence ++ competitor analysis ++ market
signals; deduplication preserves first-seen order (the result is a sublist
of the input), keeps at most one source per normalized URL, loses no
normalized URL, keeps the first occurrence on the example of the claim, and is
idempotent — re-merging an already-merged list changes nothing. -/
theorem collectAllSources_dedup_contract :
    (∀ pe ca ms : SectionResearch,
      collectAllSources pe ca ms = dedupeSources (pe.sources ++ ca.sources ++ ms.sources)) ∧
    (∀ l : List ResearchSource, (dedupeSources l).Sublist l) ∧
    (∀ l : List ResearchSource, ((dedupeSources l).map (fun s => normalizeUrl s.url)).Nodup) ∧
    (∀ (l : List ResearchSource) (s : ResearchSource), s ∈ l →
      ∃ t, t ∈ dedupeSources l ∧ normalizeUrl t.url = normalizeUrl s.url) ∧
    collectAllSources ⟨"", [⟨"A", "url1"⟩, ⟨"B", "url1"⟩], []⟩ ⟨"", [⟨"C", "url2"⟩], []⟩
      ⟨"", [], []⟩ = [⟨"A", "url1"⟩, ⟨"C", "url2"⟩] ∧
    (∀ l : List ResearchSource, dedupeSources (dedupeSources l) = dedupeSources l) ∧
    (∀ (pe ca ms : SectionResearch) (c1 c2 c3 : String) (q1 q2 q3 : List String),
      collectAllSources ⟨c1, collectAllSources pe ca ms, q1⟩ ⟨c2, [], q2⟩ ⟨c3, [], q3⟩ =
        collectAllSources pe ca ms) := by
  refine ⟨fun pe ca ms => rfl,
          fun l => dedupeSourcesAux_sublist l [],
          fun l => dedupeSourcesAux_nodup l [],
          fun l s hs => dedupeSourcesAux_complete l [] s hs (by simp),
          by decide,
          dedupeSources_idem,
          ?_⟩
  intro pe ca ms c1 c2 c3 q1 q2 q3
  show dedupeSources (collectAllSources pe ca ms ++ [] ++ []) = collectAllSources pe ca ms
  rw [List.append_nil, List.append_nil]
  exact dedupeSources_idem _

/-- C6, witness: the membership-preservation conjunct applied at a concrete
source list. -/
theorem collectAllSources_dedup_contract_witness :
    ∃ t, t ∈ dedupeSources [⟨"A", "url1"⟩] ∧
      normalizeUrl t.url = normalizeUrl (ResearchSource.mk "A" "url1").url :=
  collectAllSources_dedup_contract.2.2.2.1 [⟨"A", "url1"⟩] ⟨"A", "url1"⟩ (by decide)

/-- C9 counterexample: a completed task whose answer is the empty string
has a non-null answer, so the claim includes it in the context block, but
the JavaScript truthiness check of the source excludes it. -/
theorem context_empty_answer_counterexample :
    emptyAnswerTask.isCompleted = true ∧
    emptyAnswerTask.answer = some "" ∧
    buildContextFromTasks [emptyAnswerTask] = "" ∧
    buildContextFromTasksClaimed [emptyAnswerTask] = "## Define target customer\n" ∧
    (buildContextFromTasks [emptyAnswerTask] ==
      buildContextFromTasksClaimed [emptyAnswerTask]) = false := by
  refine ⟨rfl, rfl, by decide, by decide, by decide⟩

/-- C9 amended: the context block contains exactly the tasks that are
completed and have a non-null, non-empty answer — equivalently, the
description of the spec restricted to the tasks with a non-empty answer —
rendered in the order the tasks were given, each entry being the title and
answer of the task. -/
theorem context_block_amended (tasks : List ValidationTask) :
    buildContextFromTasks tasks =
      buildContextFromTasksClaimed (tasks.filter (fun t => !(t.answer.getD "" == ""))) ∧
    buildContextFromTasks
      [⟨"t1", "f", "c", "Title A", "d", none, true, true, some "Answer A", 1, none⟩,
       ⟨"t2", "f", "c", "Title B", "d", none, true, false, none, 2, none⟩,
       ⟨"t3", "f", "c", "Title C", "d", none, true, true, some "Answer C", 3, none⟩] =
      "## Title A\nAnswer A\n\n## Title C\nAnswer C" := by
  constructor
  · unfold buildContextFromTasks buildContextFromTasksClaimed
    rw [List.filter_filter]
    have hpred : (fun t : ValidationTask => t.isCompleted && answerTruthy t.answer) =
        (fun t : ValidationTask => (t.isCompleted && t.answer.isSome) &&
          !(t.answer.getD "" == "")) := by
      funext t
      rcases t with ⟨id, fid, cat, title, desc, help, req, comp, ans, prio, compAt⟩
      cases ans with
      | none => simp [answerTruthy]
      | some s => simp [answerTruthy]
    rw [hpred]
  · decide

/-- C10: `normalizeUrl` is total — on any input the `new URL` call either
parses or its exception is caught, and in the catch branch the result is
the input lowercased; hence two malformed URLs are deduplicated exactly
when they are equal ignoring case, and merging never fails on malformed
citation URLs. -/
theorem normalizeUrl_total_on_malformed :
    (∀ s : String, parseUrl s = none → normalizeUrl s = jsToLowerCase s) ∧
    (∀ s t : String, parseUrl s = none → parseUrl t = none →
      (normalizeUrl s = normalizeUrl t ↔ jsToLowerCase s = jsToLowerCase t)) := by
  constructor
  · intro s h
    simp [normalizeUrl, h]
  · intro s t hs ht
    simp [normalizeUrl, hs, ht]

/-- C10, witness: both conjuncts applied at concrete malformed inputs. -/
theorem normalizeUrl_total_on_malformed_witness :
    normalizeUrl "not a url" = jsToLowerCase "not a url" ∧
    (normalizeUrl "Not A Url" = normalizeUrl "nOT a uRL" ↔
      jsToLowerCase "Not A Url" = jsToLowerCase "nOT a uRL") :=
  ⟨normalizeUrl_total_on_malformed.1 "not a url" (by decide),
   normalizeUrl_total_on_malformed.2 "Not A Url" "nOT a uRL" (by decide) (by decide)⟩

/-- C4: on a successful run the worker upserts the Report (keyed by the
framework id, with `sourcesCount = allSources.length`) strictly before
flipping the Job to COMPLETED (progress 100) and the Framework to
COMPLETED, each with a completion timestamp; and over every run whatsoever,
at every prefix of the write trace of the worker, a state in which the Job reads
COMPLETED is a state in which the Report exists. -/
theorem report_write_precedes_completed (data : ResearchJobData) (jid : String)
    (env : WorkerEnv) (t0 : Nat) :
    completedImpliesReport initialDb (processResearchJob data jid env t0).2 ∧
    (∀ (fw : FrameworkData) (pe ca ms : SectionResearch) (syn : Except String PSFSynthesis),
      (processResearchJob data jid ⟨some fw, ⟨.ok pe, .ok ca, .ok ms, syn⟩, none, none⟩ t0).1 =
        Except.ok () ∧
      (runWorkerDb data jid ⟨some fw, ⟨.ok pe, .ok ca, .ok ms, syn⟩, none, none⟩ t0).report =
        some (buildReportRecord data.frameworkId
          ⟨pe, ca, ms, synthesizeReport syn, collectAllSources pe ca ms⟩) ∧
      (buildReportRecord data.frameworkId
        ⟨pe, ca, ms, synthesizeReport syn, collectAllSources pe ca ms⟩).sourcesCount =
        (collectAllSources pe ca ms).length ∧
      (buildReportRecord data.frameworkId
        ⟨pe, ca, ms, synthesizeReport syn, collectAllSources pe ca ms⟩).frameworkId =
        data.frameworkId ∧
      (runWorkerDb data jid ⟨some fw, ⟨.ok pe, .ok ca, .ok ms, syn⟩, none, none⟩ t0).job.status =
        JobStatus.COMPLETED ∧
      (runWorkerDb data jid ⟨some fw, ⟨.ok pe, .ok ca, .ok ms, syn⟩, none, none⟩ t0).job.progress =
        100 ∧
      (runWorkerDb data jid ⟨some fw, ⟨.ok pe, .ok ca, .ok ms, syn⟩, none, none⟩ t0).job.completedAt =
        some (t0 + 1) ∧
      (runWorkerDb data jid ⟨some fw, ⟨.ok pe, .ok ca, .ok ms, syn⟩, none, none⟩ t0).framework.status =
        FrameworkStatus.COMPLETED ∧
      (runWorkerDb data jid ⟨some fw, ⟨.ok pe, .ok ca, .ok ms, syn⟩, none, none⟩ t0).framework.completedAt =
        some (t0 + 2)) := by
  constructor
  · rcases processResearchJob_trace_shape data jid env t0 with
      ⟨l, msg, t, hl, ht⟩ | ⟨l, r, t, hl, ht⟩
    · rw [ht]
      exact completedImpliesReport_of_no_complete initialDb _
        (no_complete_append_failureOps l msg t hl) (by decide)
    · rw [ht]
      refine completedImpliesReport_append initialDb l _
        (completedImpliesReport_of_no_complete initialDb l hl (by decide)) ?_
      exact completedImpliesReport_upsert_head _ r _
        (notCompleted_applyOps l initialDb hl (by decide))
  · intro fw pe ca ms syn
    exact ⟨rfl, rfl, rfl, rfl, rfl, rfl, rfl, rfl, rfl⟩

/-- C4, witness: the prefix invariant applied to the full trace of a
concrete successful run, whose final state has the Job COMPLETED. -/
theorem report_write_precedes_completed_witness :
    (applyOps initialDb
      ((processResearchJob sampleJobData "job-1" sampleEnvOk 0).2.take 21)).report.isSome =
      true :=
  (report_write_precedes_completed sampleJobData "job-1" sampleEnvOk 0).1 21 (by decide)

/-- C7 counterexample: with `maxDuration = 100` ms the timer is set to
100 ms, but the timeout error message is "Research timed out after 0
minutes" — the duration is rounded to whole minutes, so the message does
not contain the configured duration. -/
theorem timeout_message_counterexample :
    resolveTimeout (some 100) = 100 ∧
    (processResearchJob ⟨"fw-1", "p-1", "a startup idea", some 100⟩ "job-1"
      sampleEnvTimeout 0).1 = Except.error "Research timed out after 0 minutes" ∧
    strContainsSub "Research timed out after 0 minutes" "100" = false ∧
    strContainsSub "Research timed out after 0 minutes" "100ms" = false := by
  refine ⟨by decide, rfl, by decide, by decide⟩

/-- C7 amended: the worker races the orchestrator against a timer set to
`maxDuration` when provided and nonzero, else the 30-minute default; when
the timer fires first the run fails — Job FAILED with a completion
timestamp, Framework FAILED, no Report — with a timeout error whose message
states the duration rounded to whole minutes (so 30 minutes for the
default, but "0 minutes" for a 100 ms duration). -/
theorem timeout_race_amended (data : ResearchJobData) (jid : String) (t0 : Nat)
    (fw : FrameworkData) (stages : StageOutcomes) (k : Nat) :
    (processResearchJob data jid ⟨some fw, stages, some k, none⟩ t0).1 =
      Except.error (timeoutErrorMessage (resolveTimeout data.maxDuration)) ∧
    (runWorkerDb data jid ⟨some fw, stages, some k, none⟩ t0).job.status = JobStatus.FAILED ∧
    (runWorkerDb data jid ⟨some fw, stages, some k, none⟩ t0).job.error =
      some (timeoutErrorMessage (resolveTimeout data.maxDuration)) ∧
    (runWorkerDb data jid ⟨some fw, stages, some k, none⟩ t0).job.completedAt = some (t0 + 1) ∧
    (runWorkerDb data jid ⟨some fw, stages, some k, none⟩ t0).framework.status =
      FrameworkStatus.FAILED ∧
    (runWorkerDb data jid ⟨some fw, stages, some k, none⟩ t0).report = none ∧
    resolveTimeout none = DEFAULT_JOB_TIMEOUT ∧
    DEFAULT_JOB_TIMEOUT = 30 * 60 * 1000 ∧
    (∀ d : Nat, resolveTimeout (some (d + 1)) = d + 1) ∧
    resolveTimeout (some 0) = DEFAULT_JOB_TIMEOUT ∧
    timeoutErrorMessage DEFAULT_JOB_TIMEOUT = "Research timed out after 30 minutes" ∧
    (∀ t : Nat, timeoutErrorMessage t =
      "Research timed out after " ++ toString (jsRoundDiv t 60000) ++ " minutes") := by
  have ht : (processResearchJob data jid ⟨some fw, stages, some k, none⟩ t0).2 =
      ([WorkerOp.updateJobStatus .ACTIVE
          ⟨some jid, none, some "Initializing research...", none, some t0, none⟩,
        WorkerOp.loadFrameworkTasks] ++
        progressOps ((conductPSFResearch stages).2.take k)) ++
      failureOps (timeoutErrorMessage (resolveTimeout data.maxDuration)) (t0 + 1) := rfl
  obtain ⟨h1, h2, h3, h4, h5⟩ := final_state_failure initialDb
    ([WorkerOp.updateJobStatus .ACTIVE
        ⟨some jid, none, some "Initializing research...", none, some t0, none⟩,
      WorkerOp.loadFrameworkTasks] ++
      progressOps ((conductPSFResearch stages).2.take k))
    (timeoutErrorMessage (resolveTimeout data.maxDuration)) (t0 + 1)
  refine ⟨rfl, ?_, ?_, ?_, ?_, ?_, rfl, rfl, fun d => rfl, rfl, rfl, fun t => rfl⟩
  · show (applyOps initialDb (processResearchJob data jid ⟨some fw, stages, some k, none⟩ t0).2).job.status = _
    rw [ht]
    exact h1
  · show (applyOps initialDb (processResearchJob data jid ⟨some fw, stages, some k, none⟩ t0).2).job.error = _
    rw [ht]
    exact h2
  · show (applyOps initialDb (processResearchJob data jid ⟨some fw, stages, some k, none⟩ t0).2).job.completedAt = _
    rw [ht]
    exact h3
  · show (applyOps initialDb (processResearchJob data jid ⟨some fw, stages, some k, none⟩ t0).2).framework.status = _
    rw [ht]
    exact h4
  · show (applyOps initialDb (processResearchJob data jid ⟨some fw, stages, some k, none⟩ t0).2).report = _
    rw [ht, h5, applyOps_append, report_unchanged_progressOps]
    rfl

/-- C8 counterexample: on a concrete dequeued job the first worker write
is the ACTIVE Job update (index 0) and the framework/task load comes second
(index 1), so the claimed "load precedes the ACTIVE transition" ordering is
false. -/
theorem active_precedes_load_counterexample :
    (processResearchJob sampleJobData "job-1" sampleEnvMissing 0).2.findIdx?
      isActiveJobUpdate = some 0 ∧
    (processResearchJob sampleJobData "job-1" sampleEnvMissing 0).2.findIdx?
      isLoadOp = some 1 ∧
    loadPrecedesActiveB (processResearchJob sampleJobData "job-1" sampleEnvMissing 0).2 =
      false := by
  refine ⟨by decide, by decide, by decide⟩

/-- C8 amended: on dequeue the worker first marks the Job ACTIVE, recording
the external queue-job id, the start time and the initializing step label,
and only then loads the tasks of the Framework (ordered by priority
ascending) and the description of the linked project; a missing Framework
makes the load
throw, which the catch block turns into Job FAILED (with the not-found
message and a completion timestamp) and Framework FAILED before
re-throwing. -/
theorem worker_marks_active_then_loads :
    (∀ (data : ResearchJobData) (jid : String) (env : WorkerEnv) (t0 : Nat),
      (processResearchJob data jid env t0).2.take 2 =
        [WorkerOp.updateJobStatus .ACTIVE
          ⟨some jid, none, some "Initializing research...", none, some t0, none⟩,
         WorkerOp.loadFrameworkTasks]) ∧
    (∀ (data : ResearchJobData) (jid : String) (t0 : Nat) (stages : StageOutcomes)
        (timer : Option Nat) (sfail : Option String),
      (processResearchJob data jid ⟨none, stages, timer, sfail⟩ t0).1 =
        Except.error ("Framework not found: " ++ data.frameworkId) ∧
      (runWorkerDb data jid ⟨none, stages, timer, sfail⟩ t0).job.status = JobStatus.FAILED ∧
      (runWorkerDb data jid ⟨none, stages, timer, sfail⟩ t0).job.error =
        some ("Framework not found: " ++ data.frameworkId) ∧
      (runWorkerDb data jid ⟨none, stages, timer, sfail⟩ t0).job.completedAt = some (t0 + 1) ∧
      (runWorkerDb data jid ⟨none, stages, timer, sfail⟩ t0).framework.status =
        FrameworkStatus.FAILED ∧
      (runWorkerDb data jid ⟨none, stages, timer, sfail⟩ t0).report = none) ∧
    (∀ (fid : String) (fw : FrameworkData),
      getFrameworkTasks fid (some fw) =
        Except.ok (fw.tasks.insertionSort (fun a b => a.priority ≤ b.priority),
          fw.projectDescription)) ∧
    (∀ l : List ValidationTask,
      List.Sorted (fun a b : ValidationTask => a.priority ≤ b.priority)
        (l.insertionSort (fun a b => a.priority ≤ b.priority)) ∧
      (l.insertionSort (fun a b => a.priority ≤ b.priority)).Perm l) := by
  refine ⟨processResearchJob_take2, ?_, fun fid fw => rfl, ?_⟩
  · intro data jid t0 stages timer sfail
    exact ⟨rfl, rfl, rfl, rfl, rfl, rfl⟩
  · intro l
    exact ⟨List.sorted_insertionSort _ l, List.perm_insertionSort _ l⟩

end Val
